import Mathlib

/-!
Verification of the AskYouTube repository (backend.py and app.py) against its
natural-language specification.

Strings manipulated by the Python code are embedded as `List Char`.  The
external effects (YouTube transcript fetch, filesystem writes, vector-store
loading, agent runs) are embedded through an environment record `Env` whose
fields give the outcome of each external call, and every backend function
additionally returns the list of external `Event`s it performs, in order.
Calls to `print` (stdout only) are not recorded as events; no claim concerns
them.
-/

deriving instance DecidableEq for Except

/-! ## Python string primitives -/

/-- Python's substring test `sub in s`: true iff `sub` occurs contiguously in
`s` (always true for the empty `sub`). -/
def pyContains (sub : List Char) : List Char → Bool
  | [] => sub.isEmpty
  | c :: cs => sub.isPrefixOf (c :: cs) || pyContains sub cs

/-- Worker for `pySplit`.  Scans the string left to right; `acc` holds the
characters of the current field in reverse, and `skip` counts separator
characters still to be consumed after a match (Python's split is
non-overlapping). -/
def pySplitAux (sep : List Char) : List Char → List Char → Nat → List (List Char)
  | [], acc, _ => [acc.reverse]
  | _ :: cs, acc, Nat.succ skip => pySplitAux sep cs acc skip
  | c :: cs, acc, 0 =>
    if sep.isPrefixOf (c :: cs) then
      acc.reverse :: pySplitAux sep cs [] (sep.length - 1)
    else
      pySplitAux sep cs (c :: acc) 0

/-- Python's `s.split(sep)` for a non-empty separator: the list of fields of
`s` delimited by non-overlapping occurrences of `sep`, scanned left to right.
(Python raises on an empty separator; the code under verification only splits
on the non-empty separators `"v="`, `"&"`, `"/"` and `".be/"`.) -/
def pySplit (sep s : List Char) : List (List Char) :=
  if sep.isEmpty then [s] else pySplitAux sep s [] 0

/-- Prefix of `s` strictly before the first occurrence of `sep` (all of `s`
when `sep` does not occur).  This is a specification-side notion used to state
claims about "the substring before/after the first occurrence". -/
def beforeFirst (sep : List Char) : List Char → List Char
  | [] => []
  | c :: cs => if sep.isPrefixOf (c :: cs) then [] else c :: beforeFirst sep cs

/-- Suffix of `s` strictly after the first occurrence of `sep`, `none` when
`sep` does not occur.  Specification-side notion. -/
def afterFirst (sep : List Char) : List Char → Option (List Char)
  | [] => none
  | c :: cs =>
    if sep.isPrefixOf (c :: cs) then some (List.drop sep.length (c :: cs))
    else afterFirst sep cs

/-- Suffix of `s` strictly after the last occurrence of the character `c`
(all of `s` when `c` does not occur).  Specification-side notion for "the
substring after the last `/`". -/
def afterLastChar (c : Char) (s : List Char) : List Char :=
  (List.takeWhile (fun d => d != c) s.reverse).reverse

/-! ## Data model -/

/-- One line of a fetched transcript.  The Python library returns dictionaries
with `text`, `start` and `duration` keys; the code under verification only
reads `line["text"]`, so only that field is modelled. -/
structure TranscriptLine where
  text : List Char
  deriving DecidableEq, Repr

/-- Outcome of a call to `YouTubeTranscriptApi.get_transcript`: a transcript,
or one of the exceptions the backend distinguishes (`NoTranscriptFound`,
`TranscriptsDisabled`, or any other exception with its `str()`). -/
inductive TranscriptResult
  | ok (lines : List TranscriptLine)
  | noTranscriptFound
  | transcriptsDisabled
  | err (msg : List Char)
  deriving DecidableEq, Repr

/-- Python exceptions raised by the embedded code. -/
inductive PyErr
  | valueError (msg : List Char)
  | httpExc (statusCode : Nat) (detail : List Char)
  | generic (msg : List Char)
  deriving DecidableEq, Repr

/-- Python's `str(e)` on an exception.  `ValueError` and generic exceptions
render their message; Starlette's `HTTPException.__str__` renders
`"{status_code}: {detail}"`. -/
def strOfErr : PyErr → List Char
  | .valueError m => m
  | .httpExc code detail => (Nat.repr code).toList ++ ": ".toList ++ detail
  | .generic m => m

/-- External effects performed by the backend, in order.  `fetchTranscript`
records the video id and the `languages` keyword argument (`none` when the
keyword was not passed); `kbLoad` records the `recreate` flag passed to
`knowledge_base.load`. -/
inductive Event
  | fetchTranscript (videoId : List Char) (languages : Option (List (List Char)))
  | mkdir (path : List Char)
  | fileWrite (path : List Char) (content : List Char)
  | kbConstruct
  | kbLoad (recreate : Bool)
  | agentConstruct
  | agentRun (question : List Char)
  deriving DecidableEq, Repr

/-- Discriminator for file-write events. -/
def Event.isWrite : Event → Bool
  | .fileWrite _ _ => true
  | _ => false

/-- Outcomes of the external services: the transcript API, the vector-store
`load`, and the agent `run` (which yields `response.content` or raises). -/
structure Env where
  getTranscript : List Char → Option (List (List Char)) → TranscriptResult
  kbLoadResult : Except (List Char) Unit
  agentRun : List Char → Except (List Char) (List Char)

/-- The dictionary `{"status": ..., "message": ...}` returned by
`write_captions_to_file_api`: it has exactly these two keys. -/
structure ApiResult where
  status : List Char
  message : List Char
  deriving DecidableEq, Repr

/-- Value returned by a FastAPI endpoint body: a plain string, a Python set
of strings (`{answer}` is a one-element set literal), or a status/message
dictionary. -/
inductive Body
  | str (s : List Char)
  | pySet (elems : List (List Char))
  deriving DecidableEq, Repr

/-! ## Embedding of `backend.py` -/

/-- backend.py lines 37-47, `get_youtube_video_id`.  The `try` block's only
possible exception is the explicit `raise ValueError("Invalid YouTube URL
format")`, which the function's own `except` re-raises as
`ValueError(f"Error extracting video ID: {str(e)}")`; a raised exception is
an `Except.error`.  Under the first guard `url.split("v=")` has at least two
elements and under the second it is non-empty, so the Python indexing `[1]`,
`[0]`, `[-1]` cannot fail and is embedded with `getD`/`headD`/`getLastD`. -/
def get_youtube_video_id (url : List Char) : Except PyErr (List Char) :=
  if pyContains "youtube.com/watch?v=".toList url then
    .ok ((pySplit "&".toList ((pySplit "v=".toList url).getD 1 [])).headD [])
  else if pyContains "youtu.be/".toList url then
    .ok ((pySplit "/".toList url).getLastD [])
  else
    .error (.valueError ("Error extracting video ID: Invalid YouTube URL format".toList))

/-- backend.py lines 67-70: `kwargs["languages"] = languages` only when
`languages` is truthy (not `None` and not the empty list). -/
def langArgOf (languages : Option (List (List Char))) : Option (List (List Char)) :=
  match languages with
  | none => none
  | some ls => if ls.isEmpty then none else some ls

/-- The fixed fallback language list `["auto"]` (backend.py line 77). -/
def autoLang : List Char := "auto".toList

/-- backend.py lines 49-87, `get_youtube_video_captions`.  Returns the
caption string together with the transcript-fetch events performed.
`NoTranscriptFound` from the first fetch triggers the single fallback fetch
with `languages=["auto"]`; any exception from the fallback, and
`TranscriptsDisabled` or other exceptions from either fetch, are turned into
the outer handlers' strings. -/
def get_youtube_video_captions (env : Env) (url : List Char)
    (languages : Option (List (List Char))) : List Char × List Event :=
  if url.isEmpty then ("No URL provided".toList, [])
  else
    match get_youtube_video_id url with
    | .error e => (strOfErr e, [])
    | .ok video_id =>
      match env.getTranscript video_id (langArgOf languages) with
      | .ok lines =>
          (if lines.isEmpty then "No captions available for this video.".toList
           else List.intercalate " ".toList (lines.map TranscriptLine.text),
           [.fetchTranscript video_id (langArgOf languages)])
      | .noTranscriptFound =>
          match env.getTranscript video_id (some [autoLang]) with
          | .ok lines =>
              (if lines.isEmpty then "No captions available for this video.".toList
               else List.intercalate " ".toList (lines.map TranscriptLine.text),
               [.fetchTranscript video_id (langArgOf languages),
                .fetchTranscript video_id (some [autoLang])])
          | .noTranscriptFound =>
              ("No transcript found or auto-generated captions are unavailable.".toList,
               [.fetchTranscript video_id (langArgOf languages),
                .fetchTranscript video_id (some [autoLang])])
          | .transcriptsDisabled =>
              ("Transcripts are disabled for this video.".toList,
               [.fetchTranscript video_id (langArgOf languages),
                .fetchTranscript video_id (some [autoLang])])
          | .err m =>
              ("An error occurred while fetching captions: ".toList ++ m,
               [.fetchTranscript video_id (langArgOf languages),
                .fetchTranscript video_id (some [autoLang])])
      | .transcriptsDisabled =>
          ("Transcripts are disabled for this video.".toList,
           [.fetchTranscript video_id (langArgOf languages)])
      | .err m =>
          ("An error occurred while fetching captions: ".toList ++ m,
           [.fetchTranscript video_id (langArgOf languages)])

/-- backend.py lines 143-188, `create_knowledge_base_with_captions`.  A
`TextKnowledgeBase` is constructed, then `knowledge_base.load(recreate=False)`
is called; a failing load is caught and rendered as an error string, and only
a successful load reaches the `Agent(...)` construction.  The constructions
themselves are pure object creations and are modelled as non-failing. -/
def create_knowledge_base_with_captions (env : Env) : List Char × List Event :=
  match env.kbLoadResult with
  | .error m =>
      ("Error creating knowledge base with captions: ".toList ++ m,
       [.kbConstruct, .kbLoad false])
  | .ok _ =>
      ("Successfully created knowledge base and added captions for video".toList,
       [.kbConstruct, .kbLoad false, .agentConstruct])

/-- backend.py lines 106-140, `write_captions_to_file`.  The guard
`not isinstance(captions, str)` is always false in the embedding (the
captions value is a string by type).  Filesystem calls (`os.makedirs`,
`open`/`write`) are recorded as events and modelled as succeeding; the
function's blanket `except` means every path `return`s, so the result is
always `Except.ok`. -/
def write_captions_to_file (env : Env) (video_url : List Char)
    (languages : Option (List (List Char))) : Except PyErr (List Char) × List Event :=
  match get_youtube_video_id video_url with
  | .error e =>
      (.ok ("Error writing captions to file: ".toList ++ strOfErr e), [])
  | .ok video_id =>
      match get_youtube_video_captions env video_url languages with
      | (captions, evs) =>
        if "Error".toList.isPrefixOf captions || "No".toList.isPrefixOf captions then
          (.ok ("Could not write captions: ".toList ++ captions), evs)
        else
          (.ok ("Successfully wrote captions to data/txt_files/".toList
                  ++ video_id ++ ".txt".toList),
           evs ++ [.mkdir "data/txt_files".toList,
                   .fileWrite ("data/txt_files/".toList ++ video_id ++ ".txt".toList) captions]
               ++ (create_knowledge_base_with_captions env).2)

/-- backend.py lines 89-103, `write_captions_to_file_api`: wraps
`write_captions_to_file` into a `{"status", "message"}` dictionary, with the
`except` branch producing `{"status": "error", "message": str(e)}`. -/
def write_captions_to_file_api (env : Env) (video_url : List Char)
    (languages : Option (List (List Char))) : ApiResult × List Event :=
  match write_captions_to_file env video_url languages with
  | (.ok result, evs) => (⟨"success".toList, result⟩, evs)
  | (.error e, evs) => (⟨"error".toList, strOfErr e⟩, evs)

/-- backend.py lines 22-35, the `POST /write-captions` endpoint body applied
to the dictionary returned by `write_captions_to_file_api`: a result with
status `"error"` becomes a raised `HTTPException(status_code=400,
detail=result["message"])`, any other result is returned unchanged. -/
def write_captions_response (result : ApiResult) : Except PyErr ApiResult :=
  if result.status = "error".toList then .error (.httpExc 400 result.message)
  else .ok result

/-- backend.py lines 22-35, `write_captions` (`POST /write-captions`). -/
def write_captions (env : Env) (video_url : List Char)
    (languages : Option (List (List Char))) : Except PyErr ApiResult × List Event :=
  match write_captions_to_file_api env video_url languages with
  | (result, evs) => (write_captions_response result, evs)

/-- backend.py lines 208-247, `get_answer`: constructs a fresh
`TextKnowledgeBase` and a fresh `Agent`, runs the agent on the question and
returns `response.content`; any exception is re-raised as
`HTTPException(status_code=500, detail=f"Error getting answer: {str(e)}")`. -/
def get_answer (env : Env) (question : List Char) :
    Except PyErr (List Char) × List Event :=
  match env.agentRun question with
  | .ok content =>
      (.ok content, [.kbConstruct, .agentConstruct, .agentRun question])
  | .error m =>
      (.error (.httpExc 500 ("Error getting answer: ".toList ++ m)),
       [.kbConstruct, .agentConstruct, .agentRun question])

/-- backend.py lines 200-206, `ask_question` (`POST /ask`): on success the
body is the set literal `{answer}` (a one-element Python set, not the bare
string); a raised exception `e` becomes
`HTTPException(status_code=500, detail=str(e))`. -/
def ask_question (env : Env) (question : List Char) :
    Except PyErr Body × List Event :=
  match get_answer env question with
  | (.ok answer, evs) => (.ok (.pySet [answer]), evs)
  | (.error e, evs) => (.error (.httpExc 500 (strOfErr e)), evs)

/-! ## Embedding of `app.py` -/

/-- Failure modes of the video-id extraction in app.py's `main` (lines 21-28):
an `IndexError` from `[1]` on a too-short split result (caught by the
surrounding `try`), or the `st.error("Invalid YouTube URL...")` path where no
id is computed. -/
inductive AppErr
  | indexError
  | invalidUrl
  deriving DecidableEq, Repr

/-- app.py lines 21-28: the front-end's video-id extraction.  Note the guards
differ from the backend's: `"youtube.com" in video_url` (no `/watch?v=`) and
`"youtu.be" in video_url` with a split on `".be/"` taking element `[1]`. -/
def app_main_video_id (video_url : List Char) : Except AppErr (List Char) :=
  if pyContains "youtube.com".toList video_url then
    if 2 ≤ (pySplit "v=".toList video_url).length then
      .ok ((pySplit "&".toList ((pySplit "v=".toList video_url).getD 1 [])).headD [])
    else .error .indexError
  else if pyContains "youtu.be".toList video_url then
    if 2 ≤ (pySplit ".be/".toList video_url).length then
      .ok ((pySplit ".be/".toList video_url).getD 1 [])
    else .error .indexError
  else .error .invalidUrl

/-! ## Specification-side values for the URL claims -/

/-- The value the specification's claim describes for `watch?v=` URLs: the
substring strictly between the first `"v="` and the next `"&"` (or the end of
the string). -/
def specAfterFirstVeqUptoAmp (url : List Char) : List Char :=
  beforeFirst "&".toList ((afterFirst "v=".toList url).getD [])

/-- The value the code actually computes for `watch?v=` URLs, described in
first-occurrence terms: the substring strictly between the first `"v="` and
the next occurrence of `"v="` (or the end of the string), truncated at the
first `"&"` within it. -/
def specAfterFirstVeqUptoVeqAmp (url : List Char) : List Char :=
  beforeFirst "&".toList (beforeFirst "v=".toList ((afterFirst "v=".toList url).getD []))

/-! ## Concrete environments and inputs used by witnesses -/

/-- Environment where every transcript fetch yields two ordinary lines, the
knowledge-base load succeeds and the agent answers. -/
def envHello : Env where
  getTranscript := fun _ _ => .ok [⟨"hello".toList⟩, ⟨"world".toList⟩]
  kbLoadResult := .ok ()
  agentRun := fun _ => .ok "ok".toList

/-- Environment whose (successful) transcript consists of the single line
"Nothing here", whose flattening starts with "No". -/
def envNothing : Env :=
  { envHello with getTranscript := fun _ _ => .ok [⟨"Nothing here".toList⟩] }

/-- Environment where every transcript fetch raises `NoTranscriptFound`. -/
def envNoTrans : Env :=
  { envHello with getTranscript := fun _ _ => .noTranscriptFound }

/-- Environment where every transcript fetch raises `TranscriptsDisabled`. -/
def envDisabled : Env :=
  { envHello with getTranscript := fun _ _ => .transcriptsDisabled }

/-- Environment where the agent answers "42". -/
def envAnswer : Env :=
  { envHello with agentRun := fun _ => .ok "42".toList }

/-- Environment where the agent run raises an exception rendered "boom". -/
def envAgentFail : Env :=
  { envHello with agentRun := fun _ => .error "boom".toList }

/-! ## Lemmas about the Python string primitives -/

/-- Boolean prefix test characterised by append decomposition. -/
theorem isPrefixOf_iff (p s : List Char) : p.isPrefixOf s = true ↔ ∃ t, s = p ++ t := by
  induction p generalizing s with
  | nil =>
    constructor
    · intro _; exact ⟨s, rfl⟩
    · intro _
      cases s <;> rfl
  | cons a as ih =>
    cases s with
    | nil =>
      constructor
      · intro h; simp [List.isPrefixOf] at h
      · rintro ⟨t, ht⟩; cases ht
    | cons b bs =>
      simp only [List.isPrefixOf, Bool.and_eq_true, beq_iff_eq]
      constructor
      · rintro ⟨rfl, h⟩
        obtain ⟨t, rfl⟩ := (ih bs).mp h
        exact ⟨t, rfl⟩
      · rintro ⟨t, ht⟩
        injection ht with h1 h2
        subst h1
        exact ⟨rfl, (ih bs).mpr ⟨t, h2⟩⟩

/-- Python's `in` characterised by append decomposition. -/
theorem pyContains_iff (sub s : List Char) :
    pyContains sub s = true ↔ ∃ x y, s = x ++ sub ++ y := by
  induction s with
  | nil =>
    constructor
    · intro h
      cases sub with
      | nil => exact ⟨[], [], rfl⟩
      | cons a as => simp [pyContains] at h
    · rintro ⟨x, y, hxy⟩
      rcases List.append_eq_nil.mp hxy.symm with ⟨h1, rfl⟩
      rcases List.append_eq_nil.mp h1 with ⟨rfl, rfl⟩
      rfl
  | cons c cs ih =>
    simp only [pyContains, Bool.or_eq_true]
    constructor
    · rintro (h | h)
      · obtain ⟨t, ht⟩ := (isPrefixOf_iff sub (c :: cs)).mp h
        exact ⟨[], t, by simpa using ht⟩
      · obtain ⟨x, y, rfl⟩ := ih.mp h
        exact ⟨c :: x, y, rfl⟩
    · rintro ⟨x, y, hxy⟩
      cases x with
      | nil =>
        exact Or.inl ((isPrefixOf_iff sub (c :: cs)).mpr ⟨y, by simpa using hxy⟩)
      | cons d ds =>
        injection hxy with h1 h2
        exact Or.inr (ih.mpr ⟨ds, y, h2⟩)

/-- Containment is transitive. -/
theorem pyContains_trans {b a s : List Char} (h1 : pyContains b a = true)
    (h2 : pyContains a s = true) : pyContains b s = true := by
  obtain ⟨u, v, rfl⟩ := (pyContains_iff a s).mp h2
  obtain ⟨x, y, rfl⟩ := (pyContains_iff b a).mp h1
  exact (pyContains_iff b _).mpr ⟨u ++ x, y ++ v, by simp [List.append_assoc]⟩

/-- `afterFirst` finds an occurrence exactly when the containment test does. -/
theorem afterFirst_isSome (sep : List Char) (hsep : sep ≠ []) (s : List Char) :
    (afterFirst sep s).isSome = pyContains sep s := by
  induction s with
  | nil =>
    cases sep with
    | nil => exact absurd rfl hsep
    | cons a as => rfl
  | cons c cs ih =>
    cases hp : sep.isPrefixOf (c :: cs) with
    | true => simp [afterFirst, pyContains, hp]
    | false => simp [afterFirst, pyContains, hp, ih]

/-- Decomposition of a string at the first occurrence of the separator. -/
theorem afterFirst_decomp (sep : List Char) (s r : List Char)
    (h : afterFirst sep s = some r) : s = beforeFirst sep s ++ sep ++ r := by
  induction s with
  | nil => simp [afterFirst] at h
  | cons c cs ih =>
    cases hp : sep.isPrefixOf (c :: cs) with
    | true =>
      obtain ⟨t, ht⟩ := (isPrefixOf_iff sep (c :: cs)).mp hp
      have hdrop : List.drop sep.length (c :: cs) = t := by
        rw [ht]; exact List.drop_left sep t
      simp only [afterFirst, hp, if_true] at h
      rw [hdrop] at h
      injection h with h'
      subst h'
      simp [beforeFirst, hp, ht]
    | false =>
      simp only [afterFirst, hp, Bool.false_eq_true, if_false] at h
      simpa [beforeFirst, hp] using ih h

/-- When the separator does not occur, `beforeFirst` is the whole string. -/
theorem beforeFirst_of_afterFirst_none (sep : List Char) (s : List Char)
    (h : afterFirst sep s = none) : beforeFirst sep s = s := by
  induction s with
  | nil => rfl
  | cons c cs ih =>
    cases hp : sep.isPrefixOf (c :: cs) with
    | true => simp [afterFirst, hp] at h
    | false =>
      simp only [afterFirst, hp, Bool.false_eq_true, if_false] at h
      simp [beforeFirst, hp, ih h]

/-- A positive skip count just drops that many characters. -/
theorem pySplitAux_skip (sep : List Char) (k : Nat) (s acc : List Char) :
    pySplitAux sep s acc k = pySplitAux sep (List.drop k s) acc 0 := by
  induction k generalizing s with
  | zero => rw [List.drop_zero]
  | succ j ih =>
    cases s with
    | nil => rfl
    | cons c cs =>
      simp only [pySplitAux, List.drop_succ_cons]
      exact ih cs

/-- Recursive characterisation of the split worker in terms of the first
occurrence of the separator. -/
theorem pySplitAux_eq (sep : List Char) (hsep : sep ≠ []) (s acc : List Char) :
    pySplitAux sep s acc 0 =
      (acc.reverse ++ beforeFirst sep s) ::
        (match afterFirst sep s with
         | none => []
         | some r => pySplitAux sep r [] 0) := by
  induction s generalizing acc with
  | nil => simp [pySplitAux, beforeFirst, afterFirst]
  | cons c cs ih =>
    cases hp : sep.isPrefixOf (c :: cs) with
    | true =>
      obtain ⟨m, ms, rfl⟩ : ∃ m ms, sep = m :: ms := by
        cases sep with
        | nil => exact absurd rfl hsep
        | cons m ms => exact ⟨m, ms, rfl⟩
      simp only [pySplitAux, hp, if_true]
      rw [pySplitAux_skip]
      simp [beforeFirst, afterFirst, hp, List.drop_succ_cons]
    | false =>
      simp only [pySplitAux, hp, Bool.false_eq_true, if_false]
      rw [ih (c :: acc)]
      simp [beforeFirst, afterFirst, hp, List.append_assoc]

/-- Recursive characterisation of `pySplit`. -/
theorem pySplit_eq (sep : List Char) (hsep : sep ≠ []) (s : List Char) :
    pySplit sep s =
      beforeFirst sep s ::
        (match afterFirst sep s with
         | none => []
         | some r => pySplit sep r) := by
  have hne : sep.isEmpty = false := by
    cases sep with
    | nil => exact absurd rfl hsep
    | cons a as => rfl
  unfold pySplit
  rw [hne]
  simp only [Bool.false_eq_true, if_false]
  rw [pySplitAux_eq sep hsep s []]
  simp only [List.reverse_nil, List.nil_append]

/-- A split result is never the empty list. -/
theorem pySplit_ne_nil (sep : List Char) (hsep : sep ≠ []) (s : List Char) :
    pySplit sep s ≠ [] := by
  rw [pySplit_eq sep hsep s]
  exact List.cons_ne_nil _ _

/-- Python's `s.split(sep)[0]` is the prefix before the first occurrence. -/
theorem pySplit_headD (sep : List Char) (hsep : sep ≠ []) (s : List Char) :
    (pySplit sep s).headD [] = beforeFirst sep s := by
  rw [pySplit_eq sep hsep s]
  rfl

/-- Python's `s.split(sep)[1]`, when the separator occurs, is the segment
between the first occurrence and the following one (or the end). -/
theorem pySplit_getD_one (sep : List Char) (hsep : sep ≠ []) (s r : List Char)
    (h : afterFirst sep s = some r) :
    (pySplit sep s).getD 1 [] = beforeFirst sep r := by
  rw [pySplit_eq sep hsep s, h]
  simp only [List.getD_cons_succ]
  rw [pySplit_eq sep hsep r]
  simp

/-- When the separator occurs, the split has at least two fields. -/
theorem pySplit_length_ge_two (sep : List Char) (hsep : sep ≠ []) (s : List Char)
    (h : pyContains sep s = true) : 2 ≤ (pySplit sep s).length := by
  have hs := afterFirst_isSome sep hsep s
  rw [h] at hs
  cases hf : afterFirst sep s with
  | none => rw [hf] at hs; simp at hs
  | some r =>
    rw [pySplit_eq sep hsep s, hf]
    have h1 : 0 < (pySplit sep r).length :=
      List.length_pos.mpr (pySplit_ne_nil sep hsep r)
    simp only [List.length_cons]
    omega

/-- `takeWhile` ignores everything at or after an element failing the test. -/
theorem takeWhile_append_stop (p : Char → Bool) (c : Char) (hc : p c = false)
    (xs ys : List Char) :
    List.takeWhile p (xs ++ c :: ys) = List.takeWhile p xs := by
  induction xs with
  | nil => simp [List.takeWhile_cons, hc]
  | cons x xs ih =>
    simp only [List.cons_append, List.takeWhile_cons]
    cases hx : p x with
    | true => simp [hx, ih]
    | false => simp [hx]

/-- `takeWhile` keeps a list all of whose elements pass the test. -/
theorem takeWhile_of_all (p : Char → Bool) (l : List Char)
    (h : ∀ x ∈ l, p x = true) : List.takeWhile p l = l := by
  induction l with
  | nil => rfl
  | cons x xs ih =>
    rw [List.takeWhile_cons, if_pos (h x (List.mem_cons_self x xs))]
    rw [ih fun y hy => h y (List.mem_cons_of_mem x hy)]

/-- If a single-character separator is never found, the character is absent. -/
theorem afterFirst_single_none (c : Char) (s : List Char)
    (h : afterFirst [c] s = none) : ∀ x ∈ s, x ≠ c := by
  induction s with
  | nil => intro x hx; cases hx
  | cons d ds ih =>
    cases hcd : (c == d) with
    | true =>
      exfalso
      have hpf : [c].isPrefixOf (d :: ds) = true := by simp [List.isPrefixOf, hcd]
      simp [afterFirst, hpf] at h
    | false =>
      have hpf : [c].isPrefixOf (d :: ds) = false := by simp [List.isPrefixOf, hcd]
      simp only [afterFirst, hpf, Bool.false_eq_true, if_false] at h
      have hne : c ≠ d := by simpa using hcd
      intro x hx
      rcases List.mem_cons.mp hx with rfl | hx'
      · exact fun hdc => hne hdc.symm
      · exact ih h x hx'

/-- The suffix after the last occurrence only depends on the part after an
occurrence. -/
theorem afterLastChar_append (c : Char) (b r : List Char) :
    afterLastChar c (b ++ c :: r) = afterLastChar c r := by
  unfold afterLastChar
  rw [List.reverse_append, List.reverse_cons, List.append_assoc,
    List.singleton_append, takeWhile_append_stop _ c (by simp)]

/-- When the character is absent, the suffix after its last occurrence is the
whole string. -/
theorem afterLastChar_of_not_mem (c : Char) (s : List Char)
    (h : ∀ x ∈ s, x ≠ c) : afterLastChar c s = s := by
  have hall : ∀ x ∈ s.reverse, (x != c) = true := fun x hx =>
    bne_iff_ne.mpr (h x (List.mem_reverse.mp hx))
  unfold afterLastChar
  rw [takeWhile_of_all _ _ hall, List.reverse_reverse]

/-- The default of `getLastD` is irrelevant on non-empty lists. -/
theorem getLastD_irrel {α : Type} (l : List α) (hl : l ≠ []) (d d' : α) :
    l.getLastD d = l.getLastD d' := by
  cases l with
  | nil => exact absurd rfl hl
  | cons a l => rfl

/-- Bounded-length worker for `pySplit_getLastD_single`. -/
theorem pySplit_getLastD_single_aux (c : Char) :
    ∀ n s, List.length s ≤ n → (pySplit [c] s).getLastD [] = afterLastChar c s := by
  intro n
  induction n with
  | zero =>
    intro s hs
    have hnil : s = [] := List.eq_nil_of_length_eq_zero (Nat.le_zero.mp hs)
    subst hnil
    rfl
  | succ n ih =>
    intro s hs
    have hsep : ([c] : List Char) ≠ [] := by simp
    rw [pySplit_eq [c] hsep s]
    cases hf : afterFirst [c] s with
    | none =>
      simp only [List.getLastD_cons, List.getLastD_nil]
      rw [beforeFirst_of_afterFirst_none [c] s hf,
        afterLastChar_of_not_mem c s (afterFirst_single_none c s hf)]
    | some r =>
      have hd := afterFirst_decomp [c] s r hf
      have hlen := congrArg List.length hd
      simp [List.length_append] at hlen
      have hr : List.length r ≤ n := by omega
      rw [List.getLastD_cons,
        getLastD_irrel (pySplit [c] r) (pySplit_ne_nil [c] hsep r) _ [],
        ih r hr, hd, List.append_assoc]
      exact (afterLastChar_append c _ r).symm

/-- Python's `s.split(c)[-1]` for a one-character separator is the substring
after the last occurrence of the character. -/
theorem pySplit_getLastD_single (c : Char) (s : List Char) :
    (pySplit [c] s).getLastD [] = afterLastChar c s :=
  pySplit_getLastD_single_aux c s.length s (Nat.le_refl _)

/-! ## Helper lemmas about the embedded backend -/

/-- An extraction success forces a non-empty URL. -/
theorem url_isEmpty_false_of_ok {url vid : List Char}
    (hv : get_youtube_video_id url = .ok vid) : url.isEmpty = false := by
  cases url with
  | cons c cs => rfl
  | nil =>
    have hnil : get_youtube_video_id []
        = .error (.valueError ("Error extracting video ID: Invalid YouTube URL format".toList)) := rfl
    rw [hnil] at hv
    exact Except.noConfusion hv

/-- Every code path of `write_captions_to_file` returns normally (its blanket
`except` turns exceptions into returned strings). -/
theorem write_captions_to_file_ok (env : Env) (url : List Char)
    (languages : Option (List (List Char))) :
    ∃ s, (write_captions_to_file env url languages).1 = .ok s := by
  unfold write_captions_to_file
  cases hv : get_youtube_video_id url with
  | error e => exact ⟨_, rfl⟩
  | ok vid =>
    cases hc : get_youtube_video_captions env url languages with
    | mk captions evs =>
      dsimp only
      split
      · exact ⟨_, rfl⟩
      · exact ⟨_, rfl⟩

/-- The `write_captions` endpoint and the api wrapper pass the trace of
`write_captions_to_file` through unchanged. -/
theorem write_captions_trace (env : Env) (url : List Char)
    (languages : Option (List (List Char))) :
    (write_captions env url languages).2 = (write_captions_to_file env url languages).2 := by
  cases hw : write_captions_to_file env url languages with
  | mk res evs =>
    cases res with
    | ok s => simp [write_captions, write_captions_to_file_api, hw]
    | error e => simp [write_captions, write_captions_to_file_api, hw]

/-- The only events of the caption fetcher are transcript fetches. -/
theorem captions_events_fetch (env : Env) (url : List Char)
    (languages : Option (List (List Char))) :
    ∀ e ∈ (get_youtube_video_captions env url languages).2,
      ∃ v la, e = Event.fetchTranscript v la := by
  intro e he
  cases hu : url.isEmpty with
  | true => simp [get_youtube_video_captions, hu] at he
  | false =>
    cases hv : get_youtube_video_id url with
    | error err => simp [get_youtube_video_captions, hu, hv] at he
    | ok vid =>
      cases h1 : env.getTranscript vid (langArgOf languages) with
      | ok lines =>
        simp [get_youtube_video_captions, hu, hv, h1] at he
        exact ⟨vid, langArgOf languages, he⟩
      | noTranscriptFound =>
        cases h2 : env.getTranscript vid (some [autoLang]) with
        | ok lines =>
          simp [get_youtube_video_captions, hu, hv, h1, h2] at he
          rcases he with he | he
          · exact ⟨vid, langArgOf languages, he⟩
          · exact ⟨vid, some [autoLang], he⟩
        | noTranscriptFound =>
          simp [get_youtube_video_captions, hu, hv, h1, h2] at he
          rcases he with he | he
          · exact ⟨vid, langArgOf languages, he⟩
          · exact ⟨vid, some [autoLang], he⟩
        | transcriptsDisabled =>
          simp [get_youtube_video_captions, hu, hv, h1, h2] at he
          rcases he with he | he
          · exact ⟨vid, langArgOf languages, he⟩
          · exact ⟨vid, some [autoLang], he⟩
        | err m =>
          simp [get_youtube_video_captions, hu, hv, h1, h2] at he
          rcases he with he | he
          · exact ⟨vid, langArgOf languages, he⟩
          · exact ⟨vid, some [autoLang], he⟩
      | transcriptsDisabled =>
        simp [get_youtube_video_captions, hu, hv, h1] at he
        exact ⟨vid, langArgOf languages, he⟩
      | err m =>
        simp [get_youtube_video_captions, hu, hv, h1] at he
        exact ⟨vid, langArgOf languages, he⟩

/-- Caption value and trace when the first fetch succeeds. -/
theorem get_captions_fetch_ok (env : Env) (url vid : List Char)
    (languages : Option (List (List Char))) (lines : List TranscriptLine)
    (hv : get_youtube_video_id url = .ok vid)
    (hfetch : env.getTranscript vid (langArgOf languages) = .ok lines) :
    get_youtube_video_captions env url languages
      = (if lines.isEmpty then "No captions available for this video.".toList
         else List.intercalate " ".toList (lines.map TranscriptLine.text),
         [.fetchTranscript vid (langArgOf languages)]) := by
  unfold get_youtube_video_captions
  simp only [url_isEmpty_false_of_ok hv, Bool.false_eq_true, if_false, hv, hfetch]

/-- Caption value and trace when the first fetch raises `NoTranscriptFound`
and the `["auto"]` fallback succeeds. -/
theorem get_captions_fallback_ok (env : Env) (url vid : List Char)
    (languages : Option (List (List Char))) (lines : List TranscriptLine)
    (hv : get_youtube_video_id url = .ok vid)
    (h1 : env.getTranscript vid (langArgOf languages) = .noTranscriptFound)
    (h2 : env.getTranscript vid (some [autoLang]) = .ok lines) :
    get_youtube_video_captions env url languages
      = (if lines.isEmpty then "No captions available for this video.".toList
         else List.intercalate " ".toList (lines.map TranscriptLine.text),
         [.fetchTranscript vid (langArgOf languages),
          .fetchTranscript vid (some [autoLang])]) := by
  unfold get_youtube_video_captions
  simp only [url_isEmpty_false_of_ok hv, Bool.false_eq_true, if_false, hv, h1, h2]

/-- A one-character-longer prefix test fails on a head mismatch. -/
theorem isPrefixOf_cons_ne (p a : Char) (ps as : List Char) (h : p ≠ a) :
    (p :: ps).isPrefixOf (a :: as) = false := by
  simp [List.isPrefixOf, h]

/-- The rejection guard of `write_captions_to_file` accepts any caption string
that starts with the fetcher's "An error occurred..." message. -/
theorem guard_false_of_error_prefix (t : List Char) :
    "Error".toList.isPrefixOf ("An error occurred while fetching captions:".toList ++ t) = false ∧
    "No".toList.isPrefixOf ("An error occurred while fetching captions:".toList ++ t) = false := by
  have hshape : "An error occurred while fetching captions:".toList ++ t
      = 'A' :: ("n error occurred while fetching captions:".toList ++ t) := rfl
  rw [hshape,
    show ("Error".toList : List Char) = 'E' :: "rror".toList from rfl,
    show ("No".toList : List Char) = 'N' :: "o".toList from rfl,
    isPrefixOf_cons_ne 'E' 'A' _ _ (by decide),
    isPrefixOf_cons_ne 'N' 'A' _ _ (by decide)]
  exact ⟨rfl, rfl⟩

/-! ## Claims -/

/-- C1: every `POST /write-captions` request yields, from
`write_captions_to_file_api`, a dictionary with exactly the keys status and
message (the `ApiResult` type) whose status is `"success"` (the underlying
write always returns normally), and the endpoint returns that dictionary
unchanged; whenever the api reports status `"error"`, the endpoint instead
raises `HTTPException(400)` whose detail is the result's message string. -/
theorem write_captions_endpoint_contract (env : Env) (url : List Char)
    (languages : Option (List (List Char))) :
    (write_captions env url languages).1
        = .ok ⟨"success".toList, (write_captions_to_file_api env url languages).1.message⟩ ∧
    (write_captions_to_file_api env url languages).1.status = "success".toList ∧
    ∀ res : ApiResult, res.status = "error".toList →
      write_captions_response res = .error (.httpExc 400 res.message) := by
  obtain ⟨s, hs⟩ := write_captions_to_file_ok env url languages
  cases hw : write_captions_to_file env url languages with
  | mk res evs =>
    rw [hw] at hs
    dsimp only at hs
    subst hs
    have hapi : write_captions_to_file_api env url languages = (⟨"success".toList, s⟩, evs) := by
      simp [write_captions_to_file_api, hw]
    refine ⟨?_, ?_, ?_⟩
    · simp [write_captions, hapi, write_captions_response]
    · rw [hapi]
    · intro r hr
      unfold write_captions_response
      rw [if_pos hr]

/-- C1 witness: the endpoint contract instantiated at a concrete request, and
the 400 branch instantiated at a concrete error dictionary. -/
theorem write_captions_endpoint_contract_witness :
    (write_captions envHello "youtu.be/abc".toList none).1
        = .ok ⟨"success".toList,
               (write_captions_to_file_api envHello "youtu.be/abc".toList none).1.message⟩ ∧
    write_captions_response ⟨"error".toList, "boom".toList⟩
        = .error (.httpExc 400 "boom".toList) :=
  ⟨(write_captions_endpoint_contract envHello "youtu.be/abc".toList none).1,
   (write_captions_endpoint_contract envHello "youtu.be/abc".toList none).2.2
     ⟨"error".toList, "boom".toList⟩ rfl⟩

/-- C2 counterexample: on input "x", `get_youtube_video_id` raises
(`Except.error`) a ValueError instead of returning an error string, and when
the agent run raises, `get_answer` raises an `HTTPException(500)` instead of
returning a string. -/
theorem c2_raises_counterexample :
    get_youtube_video_id "x".toList
        = .error (.valueError ("Error extracting video ID: Invalid YouTube URL format".toList)) ∧
    (get_answer envAgentFail "q".toList).1
        = .error (.httpExc 500 ("Error getting answer: boom".toList)) := by
  exact ⟨rfl, rfl⟩

/-- C2 (amended): the caption, file-writing and knowledge-base functions catch
exceptions and return strings normally, but `get_youtube_video_id` re-raises
extraction failures as a ValueError and `get_answer` re-raises agent failures
as an `HTTPException(500)`, each embedding the stringified exception. -/
theorem backend_error_discipline (env : Env) (url q m : List Char)
    (languages : Option (List (List Char))) :
    (pyContains "youtube.com/watch?v=".toList url = false →
      pyContains "youtu.be/".toList url = false →
      get_youtube_video_id url
        = .error (.valueError ("Error extracting video ID: Invalid YouTube URL format".toList))) ∧
    (env.agentRun q = .error m →
      (get_answer env q).1 = .error (.httpExc 500 ("Error getting answer: ".toList ++ m))) ∧
    (∃ s, (write_captions_to_file env url languages).1 = .ok s) := by
  refine ⟨?_, ?_, write_captions_to_file_ok env url languages⟩
  · intro h1 h2
    unfold get_youtube_video_id
    rw [h1, h2]
    rfl
  · intro h
    unfold get_answer
    rw [h]

/-- C2 witness: the amended error discipline at concrete inputs. -/
theorem backend_error_discipline_witness :
    get_youtube_video_id "x".toList
        = .error (.valueError ("Error extracting video ID: Invalid YouTube URL format".toList)) ∧
    (get_answer envAgentFail "q".toList).1
        = .error (.httpExc 500 ("Error getting answer: ".toList ++ "boom".toList)) :=
  ⟨(backend_error_discipline envAgentFail "x".toList "q".toList "boom".toList none).1
      (by decide) (by decide),
   (backend_error_discipline envAgentFail "x".toList "q".toList "boom".toList none).2.1 rfl⟩

/-- C3 counterexample: when the agent answers "42", the `/ask` endpoint's body
is the one-element set containing "42", which is not the plain string "42". -/
theorem ask_returns_set_not_string :
    (ask_question envAnswer "q".toList).1 = .ok (.pySet ["42".toList]) ∧
    Body.pySet ["42".toList] ≠ Body.str "42".toList :=
  ⟨rfl, by decide⟩

/-- C3 (amended): when `get_answer` succeeds the `/ask` endpoint returns the
one-element set containing the model-generated answer text (not the bare
string), and when `get_answer` raises the endpoint responds with an HTTP 500
error whose detail is the stringified exception. -/
theorem ask_question_contract (env : Env) (q : List Char) :
    (∀ a, (get_answer env q).1 = .ok a →
      (ask_question env q).1 = .ok (.pySet [a])) ∧
    (∀ e, (get_answer env q).1 = .error e →
      (ask_question env q).1 = .error (.httpExc 500 (strOfErr e))) := by
  cases hg : get_answer env q with
  | mk res evs =>
    constructor
    · intro a ha
      dsimp only at ha
      subst ha
      simp [ask_question, hg]
    · intro e he
      dsimp only at he
      subst he
      simp [ask_question, hg]

/-- C3 witness: the amended `/ask` contract at concrete environments for both
the success and the raising branch. -/
theorem ask_question_contract_witness :
    (ask_question envAnswer "q".toList).1 = .ok (.pySet ["42".toList]) ∧
    (ask_question envAgentFail "q".toList).1
      = .error (.httpExc 500
          (strOfErr (.httpExc 500 ("Error getting answer: ".toList ++ "boom".toList)))) :=
  ⟨(ask_question_contract envAnswer "q".toList).1 "42".toList rfl,
   (ask_question_contract envAgentFail "q".toList).2
     (.httpExc 500 ("Error getting answer: ".toList ++ "boom".toList)) rfl⟩

/-- C4 counterexample: on "youtube.com/watch?v=xv=y" (which contains the
watch pattern) the code returns "x", the segment up to the second "v=",
whereas the substring strictly between the first "v=" and the next "&" (or
the end) is "xv=y". -/
theorem video_id_not_first_veq_segment :
    pyContains "youtube.com/watch?v=".toList "youtube.com/watch?v=xv=y".toList = true ∧
    get_youtube_video_id "youtube.com/watch?v=xv=y".toList = .ok "x".toList ∧
    specAfterFirstVeqUptoAmp "youtube.com/watch?v=xv=y".toList = "xv=y".toList ∧
    ("x".toList : List Char) ≠ "xv=y".toList :=
  ⟨by decide, by decide, by decide, by decide⟩

/-- C4 (amended): for every url containing "youtube.com/watch?v=",
`get_youtube_video_id` returns the substring strictly between the first "v="
and the following occurrence of "v=" (or the end of the string), truncated at
the first "&" within it; for every url containing "youtu.be/" but not the
watch pattern it returns the substring after the last "/"; for every url
containing neither pattern it raises a ValueError. -/
theorem get_youtube_video_id_spec (url : List Char) :
    (pyContains "youtube.com/watch?v=".toList url = true →
      get_youtube_video_id url = .ok (specAfterFirstVeqUptoVeqAmp url)) ∧
    (pyContains "youtube.com/watch?v=".toList url = false →
      pyContains "youtu.be/".toList url = true →
      get_youtube_video_id url = .ok (afterLastChar '/' url)) ∧
    (pyContains "youtube.com/watch?v=".toList url = false →
      pyContains "youtu.be/".toList url = false →
      get_youtube_video_id url
        = .error (.valueError ("Error extracting video ID: Invalid YouTube URL format".toList))) := by
  refine ⟨?_, ?_, ?_⟩
  · intro h
    have hveq : pyContains "v=".toList url = true := pyContains_trans (by decide) h
    have hsep : ("v=".toList : List Char) ≠ [] := by decide
    have hamp : ("&".toList : List Char) ≠ [] := by decide
    have hsome : (afterFirst "v=".toList url).isSome = true := by
      rw [afterFirst_isSome _ hsep url, hveq]
    obtain ⟨r, hr⟩ := Option.isSome_iff_exists.mp hsome
    unfold get_youtube_video_id
    rw [h]
    rw [if_pos rfl, pySplit_getD_one _ hsep url r hr, pySplit_headD _ hamp _]
    unfold specAfterFirstVeqUptoVeqAmp
    rw [hr]
    rfl
  · intro h1 h2
    unfold get_youtube_video_id
    rw [h1, h2]
    rw [if_neg (by simp), if_pos rfl]
    exact congrArg Except.ok (pySplit_getLastD_single '/' url)
  · intro h1 h2
    unfold get_youtube_video_id
    rw [h1, h2]
    rfl

/-- C4 witness: the amended extraction behaviour at a concrete watch URL and a
concrete youtu.be URL. -/
theorem get_youtube_video_id_spec_witness :
    get_youtube_video_id "youtube.com/watch?v=abc&x=1".toList
      = .ok (specAfterFirstVeqUptoVeqAmp "youtube.com/watch?v=abc&x=1".toList) ∧
    get_youtube_video_id "youtu.be/abc".toList
      = .ok (afterLastChar '/' "youtu.be/abc".toList) :=
  ⟨(get_youtube_video_id_spec "youtube.com/watch?v=abc&x=1".toList).1 (by decide),
   (get_youtube_video_id_spec "youtu.be/abc".toList).2.1 (by decide) (by decide)⟩

/-- Shape of the trace of `write_captions_to_file`: empty on an extraction
failure, the fetch trace alone when the guard rejects, or the fetch trace
followed by the directory creation, the file write of the caption string to
`data/txt_files/<vid>.txt`, and the knowledge-base events. -/
theorem write_trace_shape (env : Env) (url : List Char)
    (languages : Option (List (List Char))) :
    (write_captions_to_file env url languages).2 = []
    ∨ (write_captions_to_file env url languages).2
        = (get_youtube_video_captions env url languages).2
    ∨ ∃ vid, (write_captions_to_file env url languages).2
        = (get_youtube_video_captions env url languages).2
          ++ [.mkdir "data/txt_files".toList,
              .fileWrite ("data/txt_files/".toList ++ vid ++ ".txt".toList)
                (get_youtube_video_captions env url languages).1]
          ++ (create_knowledge_base_with_captions env).2 := by
  unfold write_captions_to_file
  cases hv : get_youtube_video_id url with
  | error e => exact Or.inl rfl
  | ok vid =>
    cases hc : get_youtube_video_captions env url languages with
    | mk captions evs =>
      dsimp only
      split
      · exact Or.inr (Or.inl rfl)
      · exact Or.inr (Or.inr ⟨vid, rfl⟩)

/-- C5 counterexample: with a successful fetch whose single line reads
"Nothing here" (so the flattening starts with "No"), the write function
performs no file write at all and reports "Could not write captions". -/
theorem captions_success_not_persisted :
    envNothing.getTranscript "abc".toList none = .ok [⟨"Nothing here".toList⟩] ∧
    (write_captions_to_file envNothing "youtu.be/abc".toList none).2.filter Event.isWrite = [] ∧
    (write_captions_to_file envNothing "youtu.be/abc".toList none).1
      = .ok ("Could not write captions: Nothing here".toList) :=
  ⟨rfl, by decide, by decide⟩

/-- Common final step: when the caption string passes the rejection guard,
exactly one file write happens, of that string to the id-named path. -/
theorem write_after_captions (env : Env) (url vid captions : List Char)
    (languages : Option (List (List Char))) (evs : List Event)
    (hv : get_youtube_video_id url = .ok vid)
    (hcap : get_youtube_video_captions env url languages = (captions, evs))
    (hg1 : "Error".toList.isPrefixOf captions = false)
    (hg2 : "No".toList.isPrefixOf captions = false)
    (hevs : evs.filter Event.isWrite = []) :
    ((write_captions_to_file env url languages).2.filter Event.isWrite)
        = [.fileWrite ("data/txt_files/".toList ++ vid ++ ".txt".toList) captions] ∧
    (write_captions_to_file env url languages).1
        = .ok ("Successfully wrote captions to data/txt_files/".toList ++ vid ++ ".txt".toList) := by
  unfold write_captions_to_file
  cases hkb : env.kbLoadResult with
  | ok u =>
    simp only [hv, hcap]
    rw [hg1, hg2]
    simp [create_knowledge_base_with_captions, hkb, List.filter_append, hevs,
      List.filter, Event.isWrite]
  | error m =>
    simp only [hv, hcap]
    rw [hg1, hg2]
    simp [create_knowledge_base_with_captions, hkb, List.filter_append, hevs,
      List.filter, Event.isWrite]

/-- C5 (amended): for every video whose caption fetch (initial, or `["auto"]`
fallback after `NoTranscriptFound`) succeeds with a non-empty transcript whose
space-joined flattening does not itself start with "Error" or "No", the
persisted artifact is exactly that flattened string written (by the single
file-write event) to `data/txt_files/<video_id>.txt`; a successful fetch whose
flattening starts with "Error" or "No" is rejected by the guard and nothing is
written. -/
theorem captions_persisted_when_clean (env : Env) (url vid : List Char)
    (languages : Option (List (List Char))) (lines : List TranscriptLine)
    (hv : get_youtube_video_id url = .ok vid)
    (hfetch : env.getTranscript vid (langArgOf languages) = .ok lines ∨
      (env.getTranscript vid (langArgOf languages) = .noTranscriptFound ∧
       env.getTranscript vid (some [autoLang]) = .ok lines))
    (hne : lines ≠ [])
    (hg1 : "Error".toList.isPrefixOf
        (List.intercalate " ".toList (lines.map TranscriptLine.text)) = false)
    (hg2 : "No".toList.isPrefixOf
        (List.intercalate " ".toList (lines.map TranscriptLine.text)) = false) :
    ((write_captions_to_file env url languages).2.filter Event.isWrite)
        = [.fileWrite ("data/txt_files/".toList ++ vid ++ ".txt".toList)
             (List.intercalate " ".toList (lines.map TranscriptLine.text))] ∧
    (write_captions_to_file env url languages).1
        = .ok ("Successfully wrote captions to data/txt_files/".toList
                 ++ vid ++ ".txt".toList) := by
  have hle : lines.isEmpty = false := by
    cases lines with
    | nil => exact absurd rfl hne
    | cons a l => rfl
  rcases hfetch with hf | ⟨hf1, hf2⟩
  · have hcap := get_captions_fetch_ok env url vid languages lines hv hf
    rw [hle] at hcap
    simp only [Bool.false_eq_true, if_false] at hcap
    exact write_after_captions env url vid _ languages _ hv hcap hg1 hg2 rfl
  · have hcap := get_captions_fallback_ok env url vid languages lines hv hf1 hf2
    rw [hle] at hcap
    simp only [Bool.false_eq_true, if_false] at hcap
    exact write_after_captions env url vid _ languages _ hv hcap hg1 hg2 rfl

/-- C5 witness: the amended persistence property at a concrete environment
whose transcript flattens to "hello world". -/
theorem captions_persisted_when_clean_witness :
    ((write_captions_to_file envHello "youtu.be/abc".toList none).2.filter Event.isWrite)
        = [.fileWrite ("data/txt_files/".toList ++ "abc".toList ++ ".txt".toList)
             (List.intercalate " ".toList
               ([TranscriptLine.mk "hello".toList, TranscriptLine.mk "world".toList].map
                 TranscriptLine.text))] ∧
    (write_captions_to_file envHello "youtu.be/abc".toList none).1
        = .ok ("Successfully wrote captions to data/txt_files/".toList
                 ++ "abc".toList ++ ".txt".toList) :=
  captions_persisted_when_clean envHello "youtu.be/abc".toList "abc".toList none
    [TranscriptLine.mk "hello".toList, TranscriptLine.mk "world".toList]
    (by decide) (Or.inl rfl) (by decide) (by decide) (by decide)

/-- C6: whenever the first transcript fetch raises `NoTranscriptFound`,
exactly one fallback fetch is made, with the fixed language list `["auto"]`,
and if the fallback also raises `NoTranscriptFound` the function returns the
fixed unavailability message. -/
theorem captions_fallback_auto (env : Env) (url vid : List Char)
    (languages : Option (List (List Char)))
    (hv : get_youtube_video_id url = .ok vid)
    (h1 : env.getTranscript vid (langArgOf languages) = .noTranscriptFound) :
    (get_youtube_video_captions env url languages).2
      = [.fetchTranscript vid (langArgOf languages),
         .fetchTranscript vid (some [autoLang])] ∧
    (env.getTranscript vid (some [autoLang]) = .noTranscriptFound →
      (get_youtube_video_captions env url languages).1
        = "No transcript found or auto-generated captions are unavailable.".toList) := by
  unfold get_youtube_video_captions
  simp only [url_isEmpty_false_of_ok hv, Bool.false_eq_true, if_false, hv, h1]
  constructor
  · cases h2 : env.getTranscript vid (some [autoLang]) <;> simp [h2]
  · intro h2
    simp [h2]

/-- C6 witness: the fallback behaviour in an environment where both fetches
raise `NoTranscriptFound`. -/
theorem captions_fallback_auto_witness :
    (get_youtube_video_captions envNoTrans "youtu.be/abc".toList none).2
      = [.fetchTranscript "abc".toList none,
         .fetchTranscript "abc".toList (some [autoLang])] ∧
    (get_youtube_video_captions envNoTrans "youtu.be/abc".toList none).1
      = "No transcript found or auto-generated captions are unavailable.".toList :=
  ⟨(captions_fallback_auto envNoTrans "youtu.be/abc".toList "abc".toList none
      (by decide) rfl).1,
   (captions_fallback_auto envNoTrans "youtu.be/abc".toList "abc".toList none
      (by decide) rfl).2 rfl⟩

/-- C7: the knowledge-base lifecycle is accumulate-only: any `load` event in a
trace of either endpoint carries `recreate = false`; the collection is never
recreated. -/
theorem kb_load_never_recreates (env : Env) (url q : List Char)
    (languages : Option (List (List Char))) (b : Bool) :
    (Event.kbLoad b ∈ (write_captions env url languages).2 → b = false) ∧
    (Event.kbLoad b ∈ (ask_question env q).2 → b = false) := by
  constructor
  · intro hmem
    rw [write_captions_trace env url languages] at hmem
    rcases write_trace_shape env url languages with hsh | hsh | ⟨vid, hsh⟩
    · rw [hsh] at hmem
      cases hmem
    · rw [hsh] at hmem
      obtain ⟨v, la, habs⟩ := captions_events_fetch env url languages _ hmem
      exact Event.noConfusion habs
    · rw [hsh] at hmem
      rcases List.mem_append.mp hmem with hmem' | hkb
      · rcases List.mem_append.mp hmem' with hfetch | hmid
        · obtain ⟨v, la, habs⟩ := captions_events_fetch env url languages _ hfetch
          exact Event.noConfusion habs
        · simp at hmid
      · cases hkb' : env.kbLoadResult with
        | ok u =>
          simp [create_knowledge_base_with_captions, hkb'] at hkb
          exact hkb
        | error m =>
          simp [create_knowledge_base_with_captions, hkb'] at hkb
          exact hkb
  · intro hmem
    cases hr : env.agentRun q with
    | ok a => simp [ask_question, get_answer, hr] at hmem
    | error m => simp [ask_question, get_answer, hr] at hmem

/-- C7 witness: a trace that actually contains a load event, which the theorem
forces to carry `recreate = false`. -/
theorem kb_load_never_recreates_witness :
    Event.kbLoad false ∈ (write_captions envHello "youtu.be/abc".toList none).2 ∧
    false = false :=
  ⟨by decide,
   (kb_load_never_recreates envHello "youtu.be/abc".toList "q".toList none false).1 (by decide)⟩

/-- C8 counterexample: a concrete `/ask` call constructs the knowledge base
and agent and runs the question, but its trace contains no `load` event at
all: index loading is not re-triggered. -/
theorem get_answer_no_load :
    (get_answer envHello "q".toList).2
      = [.kbConstruct, .agentConstruct, .agentRun "q".toList] ∧
    Event.kbLoad false ∉ (get_answer envHello "q".toList).2 ∧
    Event.kbLoad true ∉ (get_answer envHello "q".toList).2 :=
  ⟨rfl, by decide, by decide⟩

/-- C8 (amended): every call to `get_answer` (one per `/ask` request)
constructs a fresh knowledge-base object and a fresh agent object before
running the question — nothing is cached — but it does not call `load`;
index loading happens only inside `create_knowledge_base_with_captions`
during caption writing. -/
theorem get_answer_constructs_fresh (env : Env) (q : List Char) :
    (get_answer env q).2 = [.kbConstruct, .agentConstruct, .agentRun q] ∧
    (ask_question env q).2 = [.kbConstruct, .agentConstruct, .agentRun q] := by
  cases hr : env.agentRun q <;> simp [get_answer, ask_question, hr]

/-- C9: the guard only rejects caption strings starting with "Error" or "No",
so the failure messages "Transcripts are disabled for this video." and
"An error occurred while fetching captions: ..." are still written to
`data/txt_files/<video_id>.txt` and the write reports success. -/
theorem failure_messages_persisted (env : Env) (url vid : List Char)
    (languages : Option (List (List Char)))
    (hv : get_youtube_video_id url = .ok vid)
    (hc : (get_youtube_video_captions env url languages).1
            = "Transcripts are disabled for this video.".toList ∨
          "An error occurred while fetching captions:".toList.isPrefixOf
            (get_youtube_video_captions env url languages).1 = true) :
    (write_captions_to_file env url languages).1
      = .ok ("Successfully wrote captions to data/txt_files/".toList
               ++ vid ++ ".txt".toList) ∧
    Event.fileWrite ("data/txt_files/".toList ++ vid ++ ".txt".toList)
        (get_youtube_video_captions env url languages).1
      ∈ (write_captions_to_file env url languages).2 := by
  cases hcp : get_youtube_video_captions env url languages with
  | mk captions evs =>
    rw [hcp] at hc
    dsimp only at hc
    have hg : "Error".toList.isPrefixOf captions = false ∧
        "No".toList.isPrefixOf captions = false := by
      rcases hc with hc | hc
      · subst hc
        exact ⟨by decide, by decide⟩
      · obtain ⟨t, ht⟩ := (isPrefixOf_iff _ _).mp hc
        subst ht
        exact guard_false_of_error_prefix t
    unfold write_captions_to_file
    simp only [hv, hcp]
    rw [hg.1, hg.2]
    constructor
    · rfl
    · simp

/-- C9 witness: with transcripts disabled, the disabled-message is written and
the write reports success. -/
theorem failure_messages_persisted_witness :
    (write_captions_to_file envDisabled "youtu.be/abc".toList none).1
      = .ok ("Successfully wrote captions to data/txt_files/".toList
               ++ "abc".toList ++ ".txt".toList) ∧
    Event.fileWrite ("data/txt_files/".toList ++ "abc".toList ++ ".txt".toList)
        (get_youtube_video_captions envDisabled "youtu.be/abc".toList none).1
      ∈ (write_captions_to_file envDisabled "youtu.be/abc".toList none).2 :=
  failure_messages_persisted envDisabled "youtu.be/abc".toList "abc".toList none
    (by decide) (Or.inl (by decide))

/-- C10 counterexample: on "youtu.be/abc/def" (which contains "youtu.be/"),
app.py's main computes "abc/def" (everything after the first ".be/") while
backend.py's `get_youtube_video_id` returns "def" (after the last "/"). -/
theorem frontend_backend_id_mismatch :
    pyContains "youtu.be/".toList "youtu.be/abc/def".toList = true ∧
    app_main_video_id "youtu.be/abc/def".toList = .ok "abc/def".toList ∧
    get_youtube_video_id "youtu.be/abc/def".toList = .ok "def".toList ∧
    ("abc/def".toList : List Char) ≠ "def".toList :=
  ⟨by decide, by decide, by decide, by decide⟩

/-- C10 (amended): on every url containing "youtube.com/watch?v=" the
front-end and the back-end extract the same video identifier; on urls that
only contain "youtu.be/" the two extractions can differ. -/
theorem frontend_backend_agree_on_watch (url : List Char)
    (h : pyContains "youtube.com/watch?v=".toList url = true) :
    ∃ v, app_main_video_id url = .ok v ∧ get_youtube_video_id url = .ok v := by
  have hcom : pyContains "youtube.com".toList url = true :=
    pyContains_trans (by decide) h
  have hveq : pyContains "v=".toList url = true :=
    pyContains_trans (by decide) h
  have hlen : 2 ≤ (pySplit "v=".toList url).length :=
    pySplit_length_ge_two "v=".toList (by decide) url hveq
  refine ⟨(pySplit "&".toList ((pySplit "v=".toList url).getD 1 [])).headD [], ?_, ?_⟩
  · unfold app_main_video_id
    rw [hcom, if_pos rfl, if_pos hlen]
  · unfold get_youtube_video_id
    rw [h, if_pos rfl]

/-- C10 witness: the agreement instantiated at a concrete watch URL. -/
theorem frontend_backend_agree_on_watch_witness :
    ∃ v, app_main_video_id "youtube.com/watch?v=abc&x=1".toList = .ok v ∧
      get_youtube_video_id "youtube.com/watch?v=abc&x=1".toList = .ok v :=
  frontend_backend_agree_on_watch "youtube.com/watch?v=abc&x=1".toList (by decide)
